import Mathlib

/-
  Verification of the generic digital watch face engine
  (faces/generic-digital-face/face.py of T-Watch-2020-Resources).

  The Python module is shallowly embedded: every pure helper becomes a
  Lean function, the stateful parts (label list, font cache, config store,
  navigation state) become explicit state records, and the external
  collaborators (font loader, image decoder, config store, battery module)
  become explicit environment parameters.  Fallible externals return
  Option; machine strings are Lean String (lists of Char).
-/

namespace GenericDigitalFace

/-! ### Time samples and the application environment

`utime.localtime()` yields the tuple
`(year, month, mday, hour, minute, second, weekday, yearday)`;
only indices 0..6 are read by the face.  `app._pmu` is the optional
battery/power module; the only call made on it is
`get_battery_percent()`, so it is modelled as `Option Nat`. -/

structure TimeTuple where
  year : Nat
  month : Nat
  mday : Nat
  hour : Nat
  minute : Nat
  second : Nat
  weekday : Nat
deriving DecidableEq, Repr

structure AppEnv where
  pmu : Option Nat
deriving DecidableEq, Repr

/-- `_WEEK_DAYS` of face.py. -/
def weekDays : List String :=
  ["Monday", "Tuesday", "Wednesday", "Thursday", "Friday", "Saturday", "Sunday"]

/-- `_WEEK_DAYS_SHORT` of face.py. -/
def weekDaysShort : List String :=
  ["MON", "TUE", "WED", "THU", "FRI", "SAT", "SUN"]

/-- `_MONTHS` of face.py. -/
def months : List String :=
  ["January", "February", "March", "April", "May", "June", "July",
   "August", "September", "October", "November", "December"]

/-- `_MONTHS_SHORT` of face.py. -/
def monthsShort : List String :=
  ["JAN", "FEB", "MAR", "APR", "MAY", "JUN", "JUL", "AUG", "SEP", "OCT", "NOV", "DEC"]

/-- Python `f"{n:0wd}"` for a natural number: decimal digits of `n`,
left-padded with zeros to width `w`. -/
def padZero (w n : Nat) : String :=
  let s := Nat.repr n
  ⟨List.replicate (w - s.length) '0' ++ s.data⟩

/-- Fuel-driven core of Python `str.replace(old, new)`: scan left to right,
replacing non-overlapping occurrences of `old` by `new`.  The fuel is the
length of the scanned list, ample because every step consumes at least one
character when `old` is non-empty. -/
def replaceAllGo (old new : List Char) : Nat → List Char → List Char
  | _, [] => []
  | 0, s => s
  | fuel + 1, c :: rest =>
    if old.isPrefixOf (c :: rest) then
      new ++ replaceAllGo old new fuel ((c :: rest).drop old.length)
    else
      c :: replaceAllGo old new fuel rest

/-- Python `s.replace(old, new)` for non-empty `old` (every placeholder key
is non-empty; the empty-pattern case never arises in the face code, and is
modelled as the identity). -/
def replaceAll (old new s : List Char) : List Char :=
  if old.isEmpty then s else replaceAllGo old new s.length s

/-- Python `pat in s` (substring containment) on character lists. -/
def containsSub (pat : List Char) : List Char → Bool
  | [] => pat.isEmpty
  | c :: rest => pat.isPrefixOf (c :: rest) || containsSub pat rest

/-- Python `pat in s` on strings. -/
def containsStr (s pat : String) : Bool :=
  containsSub pat.data s.data

/-- Python `s.replace(pat, repl)` on strings. -/
def replaceStr (s pat repl : String) : String :=
  ⟨replaceAll pat.data repl.data s.data⟩

/-- `_PLACEHOLDERS` of face.py, in dict insertion order.  Each entry maps a
token to the pure function of the application (battery) and the time tuple
that produces its replacement text. -/
def placeholders : List (String × (AppEnv → TimeTuple → String)) :=
  [("{YYYY}", fun _ t => padZero 4 t.year),
   ("{MM}", fun _ t => padZero 2 t.month),
   ("{DD}", fun _ t => padZero 2 t.mday),
   ("{HH}", fun _ t => padZero 2 t.hour),
   ("{mm}", fun _ t => padZero 2 t.minute),
   ("{ss}", fun _ t => padZero 2 t.second),
   ("{day}", fun _ t => weekDays.getD t.weekday ""),
   ("{day_short}", fun _ t => weekDaysShort.getD t.weekday ""),
   ("{month}", fun _ t => months.getD (t.month - 1) ""),
   ("{month_short}", fun _ t => monthsShort.getD (t.month - 1) ""),
   ("{battery_percent}", fun app _ =>
      match app.pmu with
      | some b => Nat.repr b
      | none => "")]

/-- The placeholder loop of `Face._update_labels` (face.py lines 219-221):
for each token of the table, if the token occurs in the text, replace all
its occurrences by the token's value. -/
def evaluate (app : AppEnv) (t : TimeTuple) (text : String) : String :=
  placeholders.foldl
    (fun acc kv => if containsStr acc kv.1 then replaceStr acc kv.1 (kv.2 app t) else acc)
    text

/-! ### Descriptor data model (`face.json`)

Python dicts with `cfg.get(key, default)` access are modelled as records of
`Option` fields, with the default applied at the use site exactly where the
source applies it. -/

structure BackgroundCfg where
  color : Option String
  image : Option String
deriving DecidableEq, Repr

structure LabelCfg where
  text : Option String
  color : Option String
  font : Option String
  x : Option Int
  y : Option Int
  align : Option String
deriving DecidableEq, Repr

structure FaceConfig where
  version : String
  background : Option BackgroundCfg
  labels : Option (List LabelCfg)
deriving DecidableEq, Repr

/-- External collaborators of the load path: `lv.font_load` (opaque handle
or failure) and the background image decoder (`image_helper.show` succeeds
or raises). -/
structure Env where
  fontLoad : String → Option Nat
  imageShow : String → Bool

/-- `_FONTS_PATH` of face.py. -/
def fontsPath : String := "S:fonts/"

/-- The alignment constants of `lv.ALIGN` probed by
`hasattr(lv.ALIGN, align_text)` in face.py line 171. -/
def knownAligns : List String :=
  ["DEFAULT", "TOP_LEFT", "TOP_MID", "TOP_RIGHT",
   "BOTTOM_LEFT", "BOTTOM_MID", "BOTTOM_RIGHT",
   "LEFT_MID", "RIGHT_MID", "CENTER",
   "OUT_TOP_LEFT", "OUT_TOP_MID", "OUT_TOP_RIGHT",
   "OUT_BOTTOM_LEFT", "OUT_BOTTOM_MID", "OUT_BOTTOM_RIGHT",
   "OUT_LEFT_TOP", "OUT_LEFT_MID", "OUT_LEFT_BOTTOM",
   "OUT_RIGHT_TOP", "OUT_RIGHT_MID", "OUT_RIGHT_BOTTOM"]

/-- face.py line 171: `lv.ALIGN.__dict__[align_text] if hasattr(lv.ALIGN,
align_text) else lv.ALIGN.TOP_LEFT`.  The resolved constant is represented
by its name. -/
def resolveAlign (alignText : String) : String :=
  if alignText ∈ knownAligns then alignText else "TOP_LEFT"

/-- One entry of `self._labels` together with the state of its owned
widget: `text` is the template, `value` the last resolved string (the
redraw-suppression cache, `""` right after creation), `widgetText` the last
string passed to `lv_label.set_text` (`""` at creation, line 177). -/
structure LabelInst where
  text : String
  value : String
  widgetText : String
  color : String
  align : String
  x : Int
  y : Int
  font : Option Nat
deriving DecidableEq, Repr

/-- The label widget built by one iteration of the loop in
`Face._load_labels` (face.py lines 163-195), given the font handle the
font step produced (`none` = default font). -/
def mkLabelInst (cfg : LabelCfg) (font : Option Nat) : LabelInst :=
  { text := cfg.text.getD ""
    value := ""
    widgetText := ""
    color := cfg.color.getD "#000"
    align := resolveAlign (cfg.align.getD "TOP_LEFT")
    x := cfg.x.getD 0
    y := cfg.y.getD 0
    font := font }

/-- Accumulated state of `Face._load_labels`: created label instances, the
font cache `self._fonts` (newest entry first, matching dict lookup
semantics), every call made to `lv.font_load`, and every logged font-load
failure. -/
structure LoadLabelsResult where
  labels : List LabelInst
  fonts : List (String × Nat)
  fontLoadCalls : List String
  fontErrors : List String
deriving DecidableEq, Repr

/-- One iteration of the label loop of `Face._load_labels`: build the
widget; if a font is named, consult the cache, and only on a miss call the
loader (a failed load is logged and leaves the cache unchanged — the label
keeps the default font). -/
def loadOneLabel (env : Env) (acc : LoadLabelsResult) (cfg : LabelCfg) : LoadLabelsResult :=
  match cfg.font with
  | none => { acc with labels := acc.labels ++ [mkLabelInst cfg none] }
  | some f =>
    let key := fontsPath ++ f
    match acc.fonts.lookup key with
    | some h => { acc with labels := acc.labels ++ [mkLabelInst cfg (some h)] }
    | none =>
      match env.fontLoad key with
      | some h =>
        { labels := acc.labels ++ [mkLabelInst cfg (some h)]
          fonts := (key, h) :: acc.fonts
          fontLoadCalls := acc.fontLoadCalls ++ [key]
          fontErrors := acc.fontErrors }
      | none =>
        { acc with
          labels := acc.labels ++ [mkLabelInst cfg none]
          fontLoadCalls := acc.fontLoadCalls ++ [key]
          fontErrors := acc.fontErrors ++ [key] }

/-- `Face._load_labels` (face.py lines 149-197): absent `labels` key means
nothing to do; otherwise fold the loop over the label configs starting
from empty label list and empty font cache. -/
def loadLabels (env : Env) (cfgs : Option (List LabelCfg)) : LoadLabelsResult :=
  match cfgs with
  | none => ⟨[], [], [], []⟩
  | some l => l.foldl (loadOneLabel env) ⟨[], [], [], []⟩

/-- Observable outcome of `Face._load_face` on a fresh (cleaned) screen:
`container` records that `self._container` was set to the screen,
`bgColor`/`bgImage` the background actually applied, `labels`/`fonts` the
widgets and cached fonts created, `logWarned` the unknown-version warning,
`excLogged` the catch-all `self.log.exc` at line 129. -/
structure LoadResult where
  isFaceLoaded : Bool
  container : Bool
  bgColor : Option String
  bgImage : Bool
  labels : List LabelInst
  fonts : List (String × Nat)
  fontLoadCalls : List String
  fontErrors : List String
  logWarned : Bool
  excLogged : Bool
deriving DecidableEq, Repr

/-- `Face._load_background` (face.py lines 131-147): the color is applied
when present; the image is shown when present and the decoder succeeds (a
decoder failure is caught and logged, leaving the background image
unset). -/
def loadBackground (env : Env) (bg : Option BackgroundCfg) : Option String × Bool :=
  match bg with
  | none => (none, false)
  | some cfg =>
    (cfg.color,
     match cfg.image with
     | none => false
     | some img => env.imageShow img)

/-- `Face._load_face` (face.py lines 108-129) given the outcome of reading
and JSON-decoding `face.json` (`Except.error` = IO or decode failure,
caught by the surrounding `try`).  A version other than `"1"` logs a
warning and returns before anything is built. -/
def loadFace (env : Env) (parse : Except String FaceConfig) : LoadResult :=
  match parse with
  | .error _ =>
    { isFaceLoaded := false, container := true, bgColor := none, bgImage := false,
      labels := [], fonts := [], fontLoadCalls := [], fontErrors := [],
      logWarned := false, excLogged := true }
  | .ok cfg =>
    if cfg.version = "1" then
      let bg := loadBackground env cfg.background
      let ll := loadLabels env cfg.labels
      { isFaceLoaded := true, container := true, bgColor := bg.1, bgImage := bg.2,
        labels := ll.labels, fonts := ll.fonts, fontLoadCalls := ll.fontLoadCalls,
        fontErrors := ll.fontErrors, logWarned := false, excLogged := false }
    else
      { isFaceLoaded := false, container := true, bgColor := none, bgImage := false,
        labels := [], fonts := [], fontLoadCalls := [], fontErrors := [],
        logWarned := true, excLogged := false }

/-! ### Tick-driven label refresh (`Face._update_labels`) -/

/-- One iteration of the loop in `Face._update_labels` (face.py lines
216-225): resolve the template; call `set_text` (and store the resolved
string) only when it differs from the cached `value`.  The second
component counts the `set_text` calls made (0 or 1). -/
def updateLabel (app : AppEnv) (t : TimeTuple) (l : LabelInst) : LabelInst × Nat :=
  let text := evaluate app t l.text
  if text ≠ l.value then
    ({ l with value := text, widgetText := text }, 1)
  else
    (l, 0)

/-- `Face._update_labels` over the whole label list: new label states and
the total number of `set_text` calls of this tick. -/
def updateLabels (app : AppEnv) (t : TimeTuple) (labels : List LabelInst) :
    List LabelInst × Nat :=
  (labels.map (fun l => (updateLabel app t l).1),
   (labels.map (fun l => (updateLabel app t l).2)).sum)

/-! ### Cleanup (`Face._cleanup`) -/

/-- The session state touched by `Face._cleanup`: whether
`self._container` is set, the widgets currently on the screen, the label
list, the font cache, and — as history — the handles freed so far (each
`font.free()` appends one entry). -/
structure SessionState where
  container : Bool
  screenWidgets : Nat
  labels : List LabelInst
  fonts : List (String × Nat)
  freedFonts : List Nat
deriving DecidableEq, Repr

/-- `Face._cleanup` (face.py lines 94-106): a no-op while `self._container`
is unset; otherwise clean the screen, clear the labels, free every cached
font handle and clear the cache.  (`self._container` is never reset to
`None`, so a second call runs the body again — over an already empty
cache.) -/
def cleanup (s : SessionState) : SessionState :=
  if s.container then
    { s with screenWidgets := 0, labels := [], fonts := [],
             freedFonts := s.freedFonts ++ s.fonts.map Prod.snd }
  else
    s

/-! ### Face navigation (`Face._previous_face` / `Face._next_face`) -/

/-- Index arithmetic of `Face._previous_face` (face.py lines 255-260):
`index = names.index(current); index -= 1; if index < 0: index = len - 1`.
Computed over `Int` to mirror the signed arithmetic of the source. -/
def prevFaceName (names : List String) (current : String) : String :=
  let index : Int := (names.indexOf current : Nat)
  let index := index - 1
  let index := if index < 0 then (names.length : Int) - 1 else index
  names.getD index.toNat ""

/-- Index arithmetic of `Face._next_face` (face.py lines 264-269):
`index = names.index(current); index += 1; if index >= len: index = 0`. -/
def nextFaceName (names : List String) (current : String) : String :=
  let index := names.indexOf current
  let index := index + 1
  let index := if index ≥ names.length then 0 else index
  names.getD index ""

/-- Navigation-relevant state: the catalog captured at session start, the
current face name, and the content of the external config store (the
`face` entry of `generic-digital-face.config`, `none` when absent). -/
structure NavState where
  faceNames : List String
  faceName : String
  store : Option String
deriving DecidableEq, Repr

/-- `Face._previous_face`: updates only the in-memory current name, then
publishes `CLEANUP` and `LOAD_FACE`; the config store is not written. -/
def previousFaceS (s : NavState) : NavState :=
  { s with faceName := prevFaceName s.faceNames s.faceName }

/-- `Face._next_face`: updates only the in-memory current name, then
publishes `CLEANUP` and `LOAD_FACE`; the config store is not written. -/
def nextFaceS (s : NavState) : NavState :=
  { s with faceName := nextFaceName s.faceNames s.faceName }

/-- `Face.terminate` (face.py lines 83-88), restricted to its effect on the
config store: persist the current name when it differs from the stored
one (the loop-task cancel and the cleanup are modelled elsewhere). -/
def terminateS (s : NavState) : NavState :=
  if s.store ≠ some s.faceName then { s with store := some s.faceName } else s

/-! ### Catalog scan and session start (`Face._get_face_names`, `Face.run`) -/

/-- Python `face[0].isalpha() or face[0].isdigit()` (false is never asked
of an empty directory name, modelled as `false`). -/
def firstCharAlnum (face : String) : Bool :=
  match face.data with
  | [] => false
  | c :: _ => c.isAlpha || c.isDigit

/-- Python string comparison `s <= t`: lexicographic over code points. -/
def strLe : List Char → List Char → Bool
  | [], _ => true
  | _ :: _, [] => false
  | a :: as, b :: bs =>
    if a.toNat < b.toNat then true
    else if b.toNat < a.toNat then false
    else strLe as bs

/-- Python `s <= t` on strings. -/
def pyStrLe (a b : String) : Bool :=
  strLe a.data b.data

/-- `Face._get_face_names` (face.py lines 273-276): keep directory names
whose first character is alphanumeric, sorted lexicographically
(`list.sort()`; modelled by insertion sort, which computes the same sorted
list). -/
def getFaceNames (dirs : List String) : List String :=
  List.insertionSort (fun a b => pyStrLe a b = true) (dirs.filter firstCharAlnum)

/-- Outcome of the start of `Face.run` (face.py lines 69-79): which face
name a `LOAD_FACE` event was published for (`none` when the catalog is
empty and the session bails out), the config store afterwards, and whether
the fatal no-faces path was taken. -/
structure RunResult where
  loaded : Option String
  store : Option String
  fatal : Bool
deriving DecidableEq, Repr

/-- `Face.run` start (face.py lines 69-79): an empty catalog logs an error
and returns; otherwise the persisted name is used when it is in the
catalog, and otherwise the first catalog entry is selected and immediately
persisted; the selected name is then loaded. -/
def runStart (dirs : List String) (store : Option String) : RunResult :=
  let names := getFaceNames dirs
  if names.length = 0 then
    { loaded := none, store := store, fatal := true }
  else
    match store with
    | some n =>
      if n ∈ names then
        { loaded := some n, store := store, fatal := false }
      else
        { loaded := some names.headI, store := some names.headI, fatal := false }
    | none =>
      { loaded := some names.headI, store := some names.headI, fatal := false }

/-! ### Shared concrete inputs -/

/-- A session without a battery module. -/
def exampleApp : AppEnv := ⟨none⟩

/-- `utime.localtime()` sample: 2023-01-02 03:04:05, weekday 0 (Monday). -/
def exampleTime : TimeTuple := ⟨2023, 1, 2, 3, 4, 5, 0⟩

/-- An environment whose font loader and image decoder always succeed. -/
def exampleEnv : Env := ⟨fun _ => some 7, fun _ => true⟩

/-- An environment whose font loader and image decoder always fail. -/
def failingEnv : Env := ⟨fun _ => none, fun _ => false⟩

/-- A label config with every key absent (all defaults apply). -/
def emptyLabelCfg : LabelCfg := ⟨none, none, none, none, none, none⟩

/-- A label config naming a font. -/
def fontLabelCfg : LabelCfg := ⟨some "12:34", none, some "font1.bin", none, none, none⟩

/-- A label config with a bogus alignment name. -/
def weirdAlignCfg : LabelCfg := ⟨some "{HH}", none, none, none, none, some "MIDDLE_EVERYWHERE"⟩

/-- A session state holding one loaded label and one cached font. -/
def exampleSession : SessionState :=
  ⟨true, 2, [mkLabelInst emptyLabelCfg (some 7)], [("S:fonts/font1.bin", 7)], []⟩

/-- A version-"2" descriptor that would build a label if accepted. -/
def version2Config : FaceConfig := ⟨"2", none, some [emptyLabelCfg]⟩

/-- A version-"1" descriptor with a background and two labels sharing one
font. -/
def version1Config : FaceConfig :=
  ⟨"1", some ⟨some "#FFFFFF", some "bg.png"⟩,
   some [⟨some "{HH}:{mm}", some "#FF0000", some "font1.bin", some 10, some 20, some "CENTER"⟩,
         ⟨some "{day_short}", none, some "font1.bin", none, none, none⟩]⟩

/-- The font paths a label list references, in order (specification-side
helper used to phrase claim C7). -/
def refKeys (cfgs : List LabelCfg) : List String :=
  cfgs.filterMap (fun c => c.font.map (fun f => fontsPath ++ f))

/-- Number of `lv.font_load` calls made for a given path (specification-side
helper used to phrase claim C7). -/
def countCalls (p : String) (calls : List String) : Nat :=
  (calls.filter (fun q => q == p)).length

/-! ### Helper lemmas -/

/-- A text containing none of the placeholder keys passes through the
placeholder loop unchanged. -/
theorem foldl_no_token (app : AppEnv) (t : TimeTuple) :
    ∀ (ps : List (String × (AppEnv → TimeTuple → String))) (s : String),
      (∀ kv ∈ ps, containsStr s kv.1 = false) →
      ps.foldl
        (fun acc kv => if containsStr acc kv.1 then replaceStr acc kv.1 (kv.2 app t) else acc)
        s = s
  | [], _, _ => rfl
  | kv :: ps, s, h => by
    have h1 : containsStr s kv.1 = false := h kv (List.mem_cons_self _ _)
    rw [List.foldl_cons]
    simp only [h1, Bool.false_eq_true, if_false]
    exact foldl_no_token app t ps s (fun kv2 hm => h kv2 (List.mem_cons_of_mem _ hm))

/-- Every iteration of the label loop appends exactly one label instance,
built from the label config and some font outcome. -/
theorem loadOneLabel_labels (env : Env) (acc : LoadLabelsResult) (cfg : LabelCfg) :
    ∃ fh, (loadOneLabel env acc cfg).labels = acc.labels ++ [mkLabelInst cfg fh] := by
  unfold loadOneLabel
  split
  · exact ⟨none, rfl⟩
  · dsimp only
    split
    · exact ⟨_, rfl⟩
    · split
      · exact ⟨_, rfl⟩
      · exact ⟨none, rfl⟩

/-- The label loop materializes the template of every label config, in
order, after those already present. -/
theorem loadLabels_foldl_texts (env : Env) :
    ∀ (l : List LabelCfg) (acc : LoadLabelsResult),
      (l.foldl (loadOneLabel env) acc).labels.map (fun li => li.text)
        = acc.labels.map (fun li => li.text) ++ l.map (fun c => c.text.getD "")
  | [], acc => by simp
  | cfg :: rest, acc => by
    obtain ⟨fh, hfh⟩ := loadOneLabel_labels env acc cfg
    rw [List.foldl_cons, loadLabels_foldl_texts env rest _, hfh]
    simp [mkLabelInst]

/-- `strLe` is total. -/
theorem strLe_total : ∀ s t : List Char, strLe s t = true ∨ strLe t s = true
  | [], _ => Or.inl rfl
  | _ :: _, [] => Or.inr rfl
  | a :: as, b :: bs => by
    unfold strLe
    by_cases h1 : a.toNat < b.toNat
    · left
      simp [h1]
    · by_cases h2 : b.toNat < a.toNat
      · right
        simp [h1, h2]
      · rcases strLe_total as bs with h | h <;> simp [h1, h2, h]

/-- `strLe` is transitive. -/
theorem strLe_trans : ∀ s t u : List Char,
    strLe s t = true → strLe t u = true → strLe s u = true
  | [], _, _, _, _ => rfl
  | _ :: _, [], _, h1, _ => by simp [strLe] at h1
  | _ :: _, _ :: _, [], _, h2 => by simp [strLe] at h2
  | a :: as, b :: bs, c :: cs, h1, h2 => by
    unfold strLe at h1 h2 ⊢
    by_cases hab : a.toNat < b.toNat
    · by_cases hbc : b.toNat < c.toNat
      · have hac : a.toNat < c.toNat := by omega
        simp [hac]
      · by_cases hcb : c.toNat < b.toNat
        · rw [if_neg hbc, if_pos hcb] at h2
          exact absurd h2 (by simp)
        · have hac : a.toNat < c.toNat := by omega
          simp [hac]
    · by_cases hba : b.toNat < a.toNat
      · rw [if_neg hab, if_pos hba] at h1
        exact absurd h1 (by simp)
      · rw [if_neg hab, if_neg hba] at h1
        by_cases hbc : b.toNat < c.toNat
        · have hac : a.toNat < c.toNat := by omega
          simp [hac]
        · by_cases hcb : c.toNat < b.toNat
          · rw [if_neg hbc, if_pos hcb] at h2
            exact absurd h2 (by simp)
          · rw [if_neg hbc, if_neg hcb] at h2
            have hac : ¬ a.toNat < c.toNat := by omega
            have hca : ¬ c.toNat < a.toNat := by omega
            rw [if_neg hac, if_neg hca]
            exact strLe_trans as bs cs h1 h2

instance : IsTotal String (fun a b => pyStrLe a b = true) :=
  ⟨fun a b => strLe_total a.data b.data⟩

instance : IsTrans String (fun a b => pyStrLe a b = true) :=
  ⟨fun a b c => strLe_trans a.data b.data c.data⟩

/-- The labels materialized by `_load_labels`, template-for-template. -/
theorem loadLabels_texts (env : Env) (cfgs : Option (List LabelCfg)) :
    (loadLabels env cfgs).labels.map (fun li => li.text)
      = (cfgs.getD []).map (fun c => c.text.getD "") := by
  cases cfgs with
  | none => rfl
  | some l => simpa using loadLabels_foldl_texts env l ⟨[], [], [], []⟩

/-- The head of a non-empty list is one of its members. -/
theorem headI_mem_of_ne_nil {l : List String} (h : l ≠ []) : l.headI ∈ l := by
  cases l with
  | nil => exact absurd rfl h
  | cons a t => exact List.mem_cons_self a t

/-- Whatever name the start of `run` publishes a load for is a member of
the scanned catalog. -/
theorem runStart_loaded_mem (dirs : List String) (store : Option String) (m : String)
    (h : (runStart dirs store).loaded = some m) : m ∈ getFaceNames dirs := by
  unfold runStart at h
  by_cases hl : (getFaceNames dirs).length = 0
  · rw [if_pos hl] at h
    simp at h
  · rw [if_neg hl] at h
    have hne : getFaceNames dirs ≠ [] := by
      intro hnil
      rw [hnil] at hl
      exact hl rfl
    cases store with
    | none =>
      dsimp only at h
      have hm : (getFaceNames dirs).headI = m := Option.some.inj h
      exact hm ▸ headI_mem_of_ne_nil hne
    | some n =>
      dsimp only at h
      by_cases hmem : n ∈ getFaceNames dirs
      · rw [if_pos hmem] at h
        dsimp only at h
        exact (Option.some.inj h) ▸ hmem
      · rw [if_neg hmem] at h
        dsimp only at h
        exact (Option.some.inj h) ▸ headI_mem_of_ne_nil hne

/-! ### Claim theorems -/

/-- Claim C4: the template engine replaces every literal occurrence of each
known token and passes token-free text through verbatim; in particular
evaluating the date template at (2023, 1, 2, ...) yields "2023-01-02"
(zero-padded), a repeated token is replaced at every occurrence, and the
short-weekday token at weekday 0 yields "MON". -/
theorem c4_evaluate_tokens :
    evaluate exampleApp exampleTime "{YYYY}-{MM}-{DD}" = "2023-01-02" ∧
    evaluate exampleApp exampleTime "{day_short}" = "MON" ∧
    evaluate exampleApp exampleTime "{DD}{DD}" = "0202" ∧
    ∀ (app : AppEnv) (t : TimeTuple) (s : String),
      (∀ kv ∈ placeholders, containsStr s kv.1 = false) → evaluate app t s = s := by
  refine ⟨by decide, by decide, by decide, ?_⟩
  intro app t s h
  exact foldl_no_token app t placeholders s h

/-- Witness for C4: a token-free text passes through unchanged. -/
theorem c4_evaluate_tokens_witness :
    evaluate exampleApp exampleTime "Hello 12:30" = "Hello 12:30" :=
  c4_evaluate_tokens.2.2.2 exampleApp exampleTime "Hello 12:30" (by decide)

/-- Counterexample to claim C5 as stated: a freshly loaded label whose
template resolves to the empty string (its `text` key is absent, so the
template is "") already has `value = ""`, so two consecutive ticks that
resolve to identical text invoke `set_text` zero times in total, not
exactly once. -/
theorem c5_counterexample :
    evaluate exampleApp exampleTime (mkLabelInst emptyLabelCfg none).text
      = evaluate exampleApp exampleTime (mkLabelInst emptyLabelCfg none).text ∧
    (updateLabels exampleApp exampleTime [mkLabelInst emptyLabelCfg none]).2 = 0 ∧
    (updateLabels exampleApp exampleTime
      (updateLabels exampleApp exampleTime [mkLabelInst emptyLabelCfg none]).1).2 = 0 ∧
    (updateLabels exampleApp exampleTime [mkLabelInst emptyLabelCfg none]).2 +
      (updateLabels exampleApp exampleTime
        (updateLabels exampleApp exampleTime [mkLabelInst emptyLabelCfg none]).1).2 ≠ 1 := by
  decide

/-- Claim C5 as amended: `set_text` is invoked exactly when the newly
resolved string differs from the stored `value`; the second of two
consecutive ticks with the same sample never invokes it and leaves the
label (widget text included) untouched, so a pair of consecutive ticks
resolving to identical text invokes `set_text` at most once — exactly once
when the first tick's resolution differs from the stored value, zero times
otherwise. -/
theorem c5_redraw_suppression (app : AppEnv) (t : TimeTuple) (l : LabelInst) :
    (updateLabel app t l).2 = (if evaluate app t l.text ≠ l.value then 1 else 0) ∧
    (updateLabel app t (updateLabel app t l).1).2 = 0 ∧
    (updateLabel app t (updateLabel app t l).1).1 = (updateLabel app t l).1 ∧
    (updateLabel app t l).2 + (updateLabel app t (updateLabel app t l).1).2 ≤ 1 := by
  unfold updateLabel
  by_cases h : evaluate app t l.text = l.value
  · simp [h]
  · simp [h]

/-- Claim C6: `_cleanup` is idempotent — a second immediate call changes
nothing and frees no handle again (each cached handle is freed exactly
once per load/cleanup cycle), and cleaning up with an empty cache frees
nothing. -/
theorem c6_cleanup_idempotent (s : SessionState) :
    cleanup (cleanup s) = cleanup s ∧
    (cleanup (cleanup s)).freedFonts = (cleanup s).freedFonts ∧
    (s.container = true → (cleanup s).freedFonts = s.freedFonts ++ s.fonts.map Prod.snd) ∧
    (s.fonts = [] → (cleanup s).freedFonts = s.freedFonts) := by
  unfold cleanup
  by_cases h : s.container = true
  · simp [h]
  · simp [h]

/-- Witness for C6: double cleanup of a loaded session equals single
cleanup and the single cached handle is freed exactly once. -/
theorem c6_cleanup_idempotent_witness :
    cleanup (cleanup exampleSession) = cleanup exampleSession ∧
    (cleanup exampleSession).freedFonts = [7] := by
  have h := c6_cleanup_idempotent exampleSession
  refine ⟨h.1, ?_⟩
  rw [h.2.2.1 rfl]
  decide

/-- Claim C3: a descriptor whose version is not "1" is rejected atomically:
no label widgets, no fonts, no background, the loaded flag stays false,
and only a warning is logged. -/
theorem c3_version_rejected (env : Env) (cfg : FaceConfig) (hv : cfg.version ≠ "1") :
    loadFace env (.ok cfg) =
      { isFaceLoaded := false, container := true, bgColor := none, bgImage := false,
        labels := [], fonts := [], fontLoadCalls := [], fontErrors := [],
        logWarned := true, excLogged := false } := by
  unfold loadFace
  simp [hv]

/-- Witness for C3: the version-"2" descriptor is rejected with no widgets
created. -/
theorem c3_version_rejected_witness :
    loadFace exampleEnv (.ok version2Config) =
      { isFaceLoaded := false, container := true, bgColor := none, bgImage := false,
        labels := [], fonts := [], fontLoadCalls := [], fontErrors := [],
        logWarned := true, excLogged := false } :=
  c3_version_rejected exampleEnv version2Config (by decide)

/-- Claim C9: an unrecognized alignment name resolves to the default
TOP_LEFT and the label is still created (the loop appends exactly one
label instance regardless). -/
theorem c9_unknown_align (env : Env) (acc : LoadLabelsResult) (cfg : LabelCfg)
    (a : String) (ha : cfg.align = some a) (hk : a ∉ knownAligns) :
    (∀ fh, (mkLabelInst cfg fh).align = "TOP_LEFT") ∧
    (loadOneLabel env acc cfg).labels.length = acc.labels.length + 1 := by
  constructor
  · intro fh
    unfold mkLabelInst resolveAlign
    simp [ha, hk]
  · obtain ⟨fh, hfh⟩ := loadOneLabel_labels env acc cfg
    rw [hfh]
    simp

/-- Witness for C9: the bogus alignment yields a TOP_LEFT label and load
still appends the label. -/
theorem c9_unknown_align_witness :
    (mkLabelInst weirdAlignCfg none).align = "TOP_LEFT" ∧
    (loadOneLabel exampleEnv ⟨[], [], [], []⟩ weirdAlignCfg).labels.length = 1 := by
  have h := c9_unknown_align exampleEnv ⟨[], [], [], []⟩ weirdAlignCfg
    "MIDDLE_EVERYWHERE" rfl (by decide)
  exact ⟨h.1 none, h.2⟩


/-- Claim C1: for a version-"1" descriptor, the load never stops halfway:
the loaded flag is set and one label widget is materialized for every
label spec of the descriptor, template for template (font and image
failures degrade the affected element only) — never a strict non-empty
subset. -/
theorem c1_load_all_or_nothing (env : Env) (cfg : FaceConfig) (hv : cfg.version = "1") :
    (loadFace env (.ok cfg)).isFaceLoaded = true ∧
    (loadFace env (.ok cfg)).labels.map (fun li => li.text)
      = (cfg.labels.getD []).map (fun c => c.text.getD "") ∧
    (loadFace env (.ok cfg)).labels.length = (cfg.labels.getD []).length := by
  have hload : loadFace env (.ok cfg) =
      { isFaceLoaded := true, container := true,
        bgColor := (loadBackground env cfg.background).1,
        bgImage := (loadBackground env cfg.background).2,
        labels := (loadLabels env cfg.labels).labels,
        fonts := (loadLabels env cfg.labels).fonts,
        fontLoadCalls := (loadLabels env cfg.labels).fontLoadCalls,
        fontErrors := (loadLabels env cfg.labels).fontErrors,
        logWarned := false, excLogged := false } := by
    unfold loadFace
    dsimp only
    rw [if_pos hv]
  rw [hload]
  refine ⟨rfl, loadLabels_texts env cfg.labels, ?_⟩
  have h := congrArg List.length (loadLabels_texts env cfg.labels)
  simpa using h

/-- Witness for C1: the version-"1" example descriptor loads completely,
with both labels materialized. -/
theorem c1_load_all_or_nothing_witness :
    (loadFace exampleEnv (.ok version1Config)).isFaceLoaded = true ∧
    (loadFace exampleEnv (.ok version1Config)).labels.map (fun li => li.text)
      = ["{HH}:{mm}", "{day_short}"] ∧
    (loadFace exampleEnv (.ok version1Config)).labels.length = 2 := by
  have h := c1_load_all_or_nothing exampleEnv version1Config rfl
  exact ⟨h.1, h.2.1.trans (by decide), h.2.2.trans (by decide)⟩

/-- A navigation state whose persisted name matches the current face. -/
def navExample : NavState := ⟨["faceA", "faceB"], "faceA", some "faceA"⟩

/-- Counterexample to claim C2 as stated: `_next_face` switches the current
face to "faceB" but writes nothing to the config store, which still holds
"faceA" — the store does not hold the newly selected name after next()
completes. -/
theorem c2_counterexample :
    (nextFaceS navExample).faceName = "faceB" ∧
    (nextFaceS navExample).store = some "faceA" ∧
    ¬ (nextFaceS navExample).store = some (nextFaceS navExample).faceName := by
  decide

/-- Claim C2 as amended: previous()/next() never write the config store;
the newly selected name reaches the store only at termination (terminate
persists the current name whenever it differs from the stored one). -/
theorem c2_persist_on_terminate_only (s : NavState) :
    (previousFaceS s).store = s.store ∧
    (nextFaceS s).store = s.store ∧
    (terminateS s).store = some s.faceName ∧
    (terminateS (nextFaceS s)).store = some (nextFaceS s).faceName := by
  refine ⟨rfl, rfl, ?_, ?_⟩
  · unfold terminateS
    by_cases h : s.store = some s.faceName
    · simp [h]
    · simp [h]
  · unfold terminateS nextFaceS
    by_cases h : s.store = some (nextFaceName s.faceNames s.faceName)
    · simp [h]
    · simp [h]

/-- Claim C8: navigation wraps circularly in both directions — from the
entry at index i, previous() selects index (i + n - 1) mod n and next()
selects index (i + 1) mod n of the duplicate-free catalog. -/
theorem c8_circular_navigation (names : List String) (hnd : names.Nodup)
    (i : Nat) (hi : i < names.length) :
    prevFaceName names (names.get ⟨i, hi⟩)
      = names.get ⟨(i + names.length - 1) % names.length, Nat.mod_lt _ (by omega)⟩ ∧
    nextFaceName names (names.get ⟨i, hi⟩)
      = names.get ⟨(i + 1) % names.length, Nat.mod_lt _ (by omega)⟩ := by
  have hidx : names.indexOf (names.get ⟨i, hi⟩) = i := by
    rw [List.get_eq_getElem]
    exact List.indexOf_getElem hnd i hi
  constructor
  · unfold prevFaceName
    dsimp only
    rw [hidx]
    by_cases h0 : ((i : Int) - 1) < 0
    · rw [if_pos h0]
      have hi0 : i = 0 := by omega
      subst hi0
      have hlen : names.length - 1 < names.length := by omega
      have htn : ((names.length : Int) - 1).toNat = names.length - 1 := by omega
      rw [htn, List.getD_eq_getElem _ _ hlen]
      simp only [List.get_eq_getElem]
      have hmod : (0 + names.length - 1) % names.length = names.length - 1 := by
        rw [Nat.zero_add, Nat.mod_eq_of_lt hlen]
      simp only [hmod]
    · rw [if_neg h0]
      have htn : ((i : Int) - 1).toNat = i - 1 := by omega
      have hlt : i - 1 < names.length := by omega
      rw [htn, List.getD_eq_getElem _ _ hlt]
      simp only [List.get_eq_getElem]
      have hmod : (i + names.length - 1) % names.length = i - 1 := by
        have h1 : i + names.length - 1 = (i - 1) + names.length := by omega
        rw [h1, Nat.add_mod_right, Nat.mod_eq_of_lt (by omega)]
      simp only [hmod]
  · unfold nextFaceName
    dsimp only
    rw [hidx]
    by_cases h0 : i + 1 ≥ names.length
    · rw [if_pos h0]
      rw [List.getD_eq_getElem _ _ (by omega)]
      simp only [List.get_eq_getElem]
      have hmod : (i + 1) % names.length = 0 := by
        have h1 : i + 1 = names.length := by omega
        rw [h1, Nat.mod_self]
      simp only [hmod]
    · rw [if_neg h0]
      rw [List.getD_eq_getElem _ _ (by omega)]
      simp only [List.get_eq_getElem]
      have hmod : (i + 1) % names.length = i + 1 := Nat.mod_eq_of_lt (by omega)
      simp only [hmod]

/-- Witness for C8: on catalog ["a", "b", "c"], previous() from "a" selects
"c" and next() from "c" selects "a". -/
theorem c8_circular_navigation_witness :
    prevFaceName ["a", "b", "c"] "a" = "c" ∧ nextFaceName ["a", "b", "c"] "c" = "a" := by
  have h1 := c8_circular_navigation ["a", "b", "c"] (by decide) 0 (by decide)
  have h2 := c8_circular_navigation ["a", "b", "c"] (by decide) 2 (by decide)
  exact ⟨h1.1.trans (by decide), h2.2.trans (by decide)⟩

/-- Claim C10: with a non-empty catalog, when the persisted name is absent
or not in the catalog, session start selects the first entry of the
lexicographically sorted catalog, persists it, and loads it; any name it
loads is always a catalog member. -/
theorem c10_session_start (dirs : List String) (store : Option String)
    (hne : getFaceNames dirs ≠ [])
    (hmiss : store = none ∨ ∃ n, store = some n ∧ n ∉ getFaceNames dirs) :
    runStart dirs store =
      { loaded := some (getFaceNames dirs).headI,
        store := some (getFaceNames dirs).headI, fatal := false } ∧
    (getFaceNames dirs).headI ∈ getFaceNames dirs ∧
    (∀ (dirs2 : List String) (store2 : Option String) (m : String),
        (runStart dirs2 store2).loaded = some m → m ∈ getFaceNames dirs2) ∧
    (getFaceNames dirs).Sorted (fun a b => pyStrLe a b = true) := by
  have hlen : ¬ (getFaceNames dirs).length = 0 := by
    intro h
    exact hne (List.length_eq_zero.mp h)
  refine ⟨?_, headI_mem_of_ne_nil hne, runStart_loaded_mem, ?_⟩
  · unfold runStart
    rw [if_neg hlen]
    rcases hmiss with rfl | ⟨n, rfl, hnot⟩
    · rfl
    · dsimp only
      rw [if_neg hnot]
  · unfold getFaceNames
    exact List.sorted_insertionSort _ _

/-- Witness for C10: with persisted name "gone" not among the scanned
directories, session start selects, persists and loads "alpha" — the head
of the sorted catalog ["alpha", "beta", "zeta"]. -/
theorem c10_session_start_witness :
    runStart ["zeta", "alpha", ".git", "beta"] (some "gone")
      = { loaded := some "alpha", store := some "alpha", fatal := false } := by
  have h := c10_session_start ["zeta", "alpha", ".git", "beta"] (some "gone")
    (by decide) (Or.inr ⟨"gone", rfl, by decide⟩)
  exact h.1.trans (by decide)


/-- Counting helper: filtering distributes over append. -/
theorem countCalls_append (p : String) (l1 l2 : List String) :
    countCalls p (l1 ++ l2) = countCalls p l1 + countCalls p l2 := by
  unfold countCalls
  rw [List.filter_append, List.length_append]

/-- Counting helper: one matching call. -/
theorem countCalls_single_eq (p : String) : countCalls p [p] = 1 := by
  simp [countCalls]

/-- Counting helper: one non-matching call. -/
theorem countCalls_single_ne (p q : String) (h : ¬ q = p) : countCalls p [q] = 0 := by
  simp [countCalls, h]

/-- Cache invariant of the label loop: provided the loader succeeds on
path p, folding the loop adds zero loads for p when p is already cached,
and exactly one when it is not yet cached but referenced. -/
theorem loadLabels_foldl_countCalls (env : Env) (p : String)
    (hp : (env.fontLoad p).isSome = true) :
    ∀ (cfgs : List LabelCfg) (acc : LoadLabelsResult),
      countCalls p (cfgs.foldl (loadOneLabel env) acc).fontLoadCalls
        = countCalls p acc.fontLoadCalls +
          (if (acc.fonts.lookup p).isSome = true then 0
           else if p ∈ refKeys cfgs then 1 else 0)
  | [], acc => by simp [refKeys]
  | cfg :: rest, acc => by
    rw [List.foldl_cons, loadLabels_foldl_countCalls env p hp rest _]
    cases hf : cfg.font with
    | none =>
      have hone : loadOneLabel env acc cfg
          = { acc with labels := acc.labels ++ [mkLabelInst cfg none] } := by
        unfold loadOneLabel
        rw [hf]
      have hkeys : refKeys (cfg :: rest) = refKeys rest := by
        simp [refKeys, List.filterMap_cons, hf]
      rw [hone, hkeys]
    | some f =>
      have hkeys : refKeys (cfg :: rest) = (fontsPath ++ f) :: refKeys rest := by
        simp [refKeys, List.filterMap_cons, hf]
      cases hl : List.lookup (fontsPath ++ f) acc.fonts with
      | some h =>
        have hone : loadOneLabel env acc cfg
            = { acc with labels := acc.labels ++ [mkLabelInst cfg (some h)] } := by
          unfold loadOneLabel
          rw [hf]
          dsimp only
          rw [hl]
        rw [hone, hkeys]
        by_cases hpk : p = fontsPath ++ f
        · subst hpk
          rw [hl]
          simp
        · simp [List.mem_cons, hpk]
      | none =>
        cases he : env.fontLoad (fontsPath ++ f) with
        | some h =>
          have hone : loadOneLabel env acc cfg
              = { labels := acc.labels ++ [mkLabelInst cfg (some h)],
                  fonts := (fontsPath ++ f, h) :: acc.fonts,
                  fontLoadCalls := acc.fontLoadCalls ++ [fontsPath ++ f],
                  fontErrors := acc.fontErrors } := by
            unfold loadOneLabel
            rw [hf]
            dsimp only
            rw [hl, he]
          rw [hone, hkeys]
          dsimp only
          by_cases hpk : p = fontsPath ++ f
          · subst hpk
            rw [countCalls_append, countCalls_single_eq, hl]
            simp [List.lookup_cons]
          · rw [countCalls_append, countCalls_single_ne p _ (fun hb => hpk hb.symm)]
            have hlk : List.lookup p ((fontsPath ++ f, h) :: acc.fonts)
                = List.lookup p acc.fonts := by
              rw [List.lookup_cons]
              simp [beq_false_of_ne hpk]
            rw [hlk]
            simp [List.mem_cons, hpk]
        | none =>
          have hpk : ¬ p = fontsPath ++ f := by
            intro hh
            rw [hh, he] at hp
            simp at hp
          have hone : loadOneLabel env acc cfg
              = { acc with
                  labels := acc.labels ++ [mkLabelInst cfg none]
                  fontLoadCalls := acc.fontLoadCalls ++ [fontsPath ++ f]
                  fontErrors := acc.fontErrors ++ [fontsPath ++ f] } := by
            unfold loadOneLabel
            rw [hf]
            dsimp only
            rw [hl, he]
          rw [hone, hkeys]
          dsimp only
          rw [countCalls_append, countCalls_single_ne p _ (fun hb => hpk hb.symm)]
          simp [List.mem_cons, hpk]

/-- Counterexample to claim C7 as stated: when the font loader fails, the
failed path is never cached, so a descriptor whose two labels name the
same font triggers two underlying load calls for that path, not exactly
one. -/
theorem c7_counterexample :
    (loadLabels failingEnv (some [fontLabelCfg, fontLabelCfg])).fontLoadCalls
      = ["S:fonts/font1.bin", "S:fonts/font1.bin"] ∧
    ¬ countCalls "S:fonts/font1.bin"
        (loadLabels failingEnv (some [fontLabelCfg, fontLabelCfg])).fontLoadCalls = 1 := by
  decide

/-- Claim C7 as amended: a font path already cached is reused without a
new load call (the existing handle is attached to the label and the cache
is unchanged), and for every path on which the loader succeeds, one load
call is made in total over the whole label list if some label references
the path, none otherwise; only a path whose load fails is re-attempted. -/
theorem c7_font_cache (env : Env) (p : String) (cfgs : List LabelCfg)
    (hp : (env.fontLoad p).isSome = true) :
    (∀ (acc : LoadLabelsResult) (cfg : LabelCfg) (f : String) (h : Nat),
        cfg.font = some f → acc.fonts.lookup (fontsPath ++ f) = some h →
        (loadOneLabel env acc cfg).fontLoadCalls = acc.fontLoadCalls ∧
        (loadOneLabel env acc cfg).labels = acc.labels ++ [mkLabelInst cfg (some h)] ∧
        (loadOneLabel env acc cfg).fonts = acc.fonts) ∧
    countCalls p (loadLabels env (some cfgs)).fontLoadCalls
      = (if p ∈ refKeys cfgs then 1 else 0) := by
  constructor
  · intro acc cfg f h hf hl
    have hone : loadOneLabel env acc cfg
        = { acc with labels := acc.labels ++ [mkLabelInst cfg (some h)] } := by
      unfold loadOneLabel
      rw [hf]
      dsimp only
      rw [hl]
    rw [hone]
    exact ⟨rfl, rfl, rfl⟩
  · have h := loadLabels_foldl_countCalls env p hp cfgs ⟨[], [], [], []⟩
    unfold loadLabels
    simpa [countCalls] using h

/-- Witness for C7 (amended): with a succeeding loader, the two labels
sharing one font trigger exactly one load call, and a cached path is
reused without a call. -/
theorem c7_font_cache_witness :
    countCalls "S:fonts/font1.bin"
      (loadLabels exampleEnv (some [fontLabelCfg, fontLabelCfg])).fontLoadCalls = 1 ∧
    (loadOneLabel exampleEnv ⟨[], [("S:fonts/font1.bin", 7)], [], []⟩
        fontLabelCfg).fontLoadCalls = [] := by
  have h := c7_font_cache exampleEnv "S:fonts/font1.bin" [fontLabelCfg, fontLabelCfg] rfl
  refine ⟨h.2.trans (by decide), ?_⟩
  have h1 := h.1 ⟨[], [("S:fonts/font1.bin", 7)], [], []⟩ fontLabelCfg "font1.bin" 7
    rfl (by decide)
  exact h1.1.trans (by decide)

end GenericDigitalFace
